import Mathlib

set_option maxRecDepth 8000

/- A formal model of the model-registry, provider-resolution, prompt-formatting
and persisted-settings layers of the OpenWhispr repository, together with
theorems settling the specified properties of those layers. -/

/-! ## Generic helpers modelling the JavaScript string and object primitives
used by the sources. -/

/-- Boolean test that `pat` is a prefix of `s` (on character lists). -/
def isPrefixList : List Char → List Char → Bool
  | [], _ => true
  | _ :: _, [] => false
  | a :: as, b :: bs => a == b && isPrefixList as bs

/-- Split `s` around the first occurrence of `pat`: `some (u, v)` with
`s = u ++ pat ++ v` at the leftmost occurrence when `pat` occurs in `s`,
`none` otherwise. -/
def splitFirst : List Char → List Char → Option (List Char × List Char)
  | [], pat => if isPrefixList pat [] then some ([], []) else none
  | c :: cs, pat =>
    if isPrefixList pat (c :: cs) then some ([], (c :: cs).drop pat.length)
    else
      match splitFirst cs pat with
      | some (u, v) => some (c :: u, v)
      | none => none

/-- JS `String.prototype.replace` with a string pattern: replace the first
occurrence of `pat` in `s` by `rep`; `s` unchanged when `pat` does not occur. -/
def jsReplace (s pat rep : String) : String :=
  match splitFirst s.data pat.data with
  | some (u, v) => ⟨u ++ rep.data ++ v⟩
  | none => s

/-- JS `String.prototype.includes`: substring test. -/
def strIncludes (s pat : String) : Bool :=
  (splitFirst s.data pat.data).isSome

/-- JS object / `Map` keyed insertion: setting an existing key replaces its
value in place (keeping its position), a new key is appended at the end. -/
def assocSet {α : Type} (l : List (String × α)) (k : String) (v : α) :
    List (String × α) :=
  if l.any (fun e => e.fst == k) then
    l.map (fun e => if e.fst == k then (k, v) else e)
  else l ++ [(k, v)]

/-- Concatenation of the images of `f`, modelling nested push loops and
JS `flatMap`. -/
def flatMapL {α β : Type} (f : α → List β) : List α → List β
  | [] => []
  | a :: l => f a ++ flatMapL f l

/-! ## Model registry (src/unnamed/part_000) -/

/-- A local model entry of the catalog (`ModelDefinition`). -/
structure ModelDefinition where
  id : String
  name : String
  size : String
  sizeBytes : Nat
  description : String
  fileName : String
  quantization : String
  contextLength : Nat
  hfRepo : String
  recommended : Option Bool
deriving DecidableEq

/-- A local provider entry of the catalog (`LocalProviderData`). -/
structure LocalProviderData where
  id : String
  name : String
  baseUrl : String
  promptTemplate : String
  models : List ModelDefinition

/-- A registered provider object (`ModelProvider`). -/
structure ModelProvider where
  id : String
  name : String
  baseUrl : String
  models : List ModelDefinition
  formatPrompt : String → String → String
  getDownloadUrl : ModelDefinition → String

/-- A cloud model entry of the catalog (`CloudModelDefinition`). -/
structure CloudModelDefinition where
  id : String
  name : String
  description : String
  disableThinking : Option Bool
deriving DecidableEq

/-- A cloud provider entry of the catalog (`CloudProviderData`). -/
structure CloudProviderData where
  id : String
  name : String
  models : List CloudModelDefinition
deriving DecidableEq

/-- `createPromptFormatter`: bind a prompt template to a formatter closure that
substitutes the system marker with `systemPrompt` and then the user marker
with `text`, each via single-occurrence `String.replace`. -/
def createPromptFormatter (template : String) : String → String → String :=
  fun text systemPrompt =>
    jsReplace (jsReplace template "\x7bsystem\x7d" systemPrompt) "\x7buser\x7d" text

/-- `ModelRegistry.registerProvider`: insert or overwrite by provider id in the
registry's keyed `Map` (insertion order preserved, last write wins). -/
def registerProvider (providers : List ModelProvider) (p : ModelProvider) :
    List ModelProvider :=
  if providers.any (fun q => q.id == p.id) then
    providers.map (fun q => if q.id == p.id then p else q)
  else providers ++ [p]

/-- An element of `getAllModels()`: a model together with the `providerId`
attached to it. -/
structure TaggedModel extends ModelDefinition where
  providerId : String
deriving DecidableEq

/-- `ModelRegistry.getAllModels`: every registered provider's models in
registration then in-provider order, each tagged with its provider's id. -/
def getAllModels (providers : List ModelProvider) : List TaggedModel :=
  flatMapL
    (fun p => p.models.map (fun m => { toModelDefinition := m, providerId := p.id }))
    providers

/-- The provider object `ModelRegistry.registerProvidersFromData` builds for
one catalog entry, including its derived `getDownloadUrl`. -/
def providerFromData (pd : LocalProviderData) : ModelProvider :=
  { id := pd.id
    name := pd.name
    baseUrl := pd.baseUrl
    models := pd.models
    formatPrompt := createPromptFormatter pd.promptTemplate
    getDownloadUrl := fun m =>
      pd.baseUrl ++ "/" ++ m.hfRepo ++ "/resolve/main/" ++ m.fileName }

/-- `ModelRegistry.registerProvidersFromData`: seed the registry from the
catalog's local provider entries. -/
def registerProvidersFromData (localProviders : List LocalProviderData) :
    List ModelProvider :=
  localProviders.foldl (fun ps pd => registerProvider ps (providerFromData pd)) []

/-- An entry of the reasoning-provider view (`ReasoningModel`). -/
structure ReasoningModel where
  value : String
  label : String
  description : String
deriving DecidableEq

/-- A bucket of the reasoning-provider view (`ReasoningProvider`). -/
structure ReasoningProvider where
  name : String
  models : List ReasoningModel
deriving DecidableEq

/-- `buildReasoningProviders`: one bucket per cloud catalog provider, plus the
synthetic `"local"` bucket holding the registry's full `getAllModels()` output
with descriptions suffixed by the model size. -/
def buildReasoningProviders (cloudProviders : List CloudProviderData)
    (providers : List ModelProvider) : List (String × ReasoningProvider) :=
  assocSet
    (cloudProviders.foldl
      (fun acc cp =>
        assocSet acc cp.id
          ⟨cp.name, cp.models.map (fun m => ⟨m.id, m.name, m.description⟩)⟩)
      [])
    "local"
    ⟨"Local AI",
      (getAllModels providers).map
        (fun m => ⟨m.id, m.name, m.description ++ " (" ++ m.size ++ ")"⟩)⟩

/-- A flattened entry of the reasoning view (`ReasoningModelWithProvider`). -/
structure ReasoningModelWithProvider extends ReasoningModel where
  provider : String
  fullLabel : String
deriving DecidableEq

/-- `getAllReasoningModels`: flatten the reasoning-provider view, tagging each
model with its bucket key and full label. -/
def getAllReasoningModels (cloudProviders : List CloudProviderData)
    (providers : List ModelProvider) : List ReasoningModelWithProvider :=
  flatMapL
    (fun e =>
      e.snd.models.map
        (fun m =>
          { toReasoningModel := m
            provider := e.fst
            fullLabel := e.snd.name ++ " " ++ m.label }))
    (buildReasoningProviders cloudProviders providers)

/-- `getModelProvider`: resolve a model identifier to a provider id — first by
lookup in the flattened reasoning view, otherwise by the ordered substring
heuristics, otherwise the empty string. -/
def getModelProvider (cloudProviders : List CloudProviderData)
    (providers : List ModelProvider) (modelId : String) : String :=
  match (getAllReasoningModels cloudProviders providers).find?
      (fun m => m.value == modelId) with
  | some m => m.provider
  | none =>
    if strIncludes modelId "claude" then "anthropic"
    else if strIncludes modelId "gemini" && !strIncludes modelId "gemma" then "gemini"
    else if (strIncludes modelId "gpt-4" || strIncludes modelId "gpt-5")
        && !strIncludes modelId "gpt-oss" then "openai"
    else if strIncludes modelId "qwen/" || strIncludes modelId "openai/"
        || strIncludes modelId "llama-3.1-8b-instant" || strIncludes modelId "llama-3.3-"
        || strIncludes modelId "mixtral-" || strIncludes modelId "gemma2-" then "groq"
    else if strIncludes modelId "qwen" || strIncludes modelId "llama"
        || strIncludes modelId "mistral"
        || strIncludes modelId "gpt-oss-20b-mxfp4" then "local"
    else ""

/-! ## Settings layer (src/unnamed/part_001) -/

/-- One persisted settings cell: key, typed default, serializer, deserializer,
as passed to the storage hook at each call site. -/
structure SettingsCell (α : Type) where
  key : String
  initialValue : α
  serialize : α → String
  deserialize : String → α

/-- JS `String(b)` on a boolean. -/
def jsString (b : Bool) : String := if b then "true" else "false"

/-- The `useLocalWhisper` cell: boolean, default `false`, stored value is
`true` exactly when the string equals `"true"`. -/
def useLocalWhisper : SettingsCell Bool :=
  ⟨"useLocalWhisper", false, jsString, fun v => v == "true"⟩

/-- The `allowOpenAIFallback` cell. -/
def allowOpenAIFallback : SettingsCell Bool :=
  ⟨"allowOpenAIFallback", false, jsString, fun v => v == "true"⟩

/-- The `allowLocalFallback` cell. -/
def allowLocalFallback : SettingsCell Bool :=
  ⟨"allowLocalFallback", false, jsString, fun v => v == "true"⟩

/-- The `useReasoningModel` cell: boolean, default `true`, deserializes to
`true` exactly when the string differs from `"false"`. -/
def useReasoningModel : SettingsCell Bool :=
  ⟨"useReasoningModel", true, jsString, fun v => v != "false"⟩

/-- The `preferBuiltInMic` cell. -/
def preferBuiltInMic : SettingsCell Bool :=
  ⟨"preferBuiltInMic", true, jsString, fun v => v != "false"⟩

/-- The `reasoningModel` cell: plain string, default empty. -/
def reasoningModel : SettingsCell String :=
  ⟨"reasoningModel", "", fun v => v, fun v => v⟩

/-- Modelled from the spec: the `config/constants` module is absent from the
sources; the concrete default endpoint string is irrelevant to every claim
proved below, only the cell's key and string type matter. -/
def API_ENDPOINTS_OPENAI_BASE : String := "https://api.openai.com/v1"

/-- The `cloudReasoningBaseUrl` cell. -/
def cloudReasoningBaseUrl : SettingsCell String :=
  ⟨"cloudReasoningBaseUrl", API_ENDPOINTS_OPENAI_BASE, fun v => v, fun v => v⟩

/-- The `activationMode` cell: default `"tap"`, deserializes `"push"` to
`"push"` and everything else to `"tap"`. -/
def activationMode : SettingsCell String :=
  ⟨"activationMode", "tap", fun v => v, fun v => if v == "push" then "push" else "tap"⟩

/-- The `openaiApiKey` cell. -/
def openaiApiKey : SettingsCell String :=
  ⟨"openaiApiKey", "", fun v => v, fun v => v⟩

/-- The `anthropicApiKey` cell. -/
def anthropicApiKey : SettingsCell String :=
  ⟨"anthropicApiKey", "", fun v => v, fun v => v⟩

/-- The `geminiApiKey` cell. -/
def geminiApiKey : SettingsCell String :=
  ⟨"geminiApiKey", "", fun v => v, fun v => v⟩

/-- The `groqApiKey` cell. -/
def groqApiKey : SettingsCell String :=
  ⟨"groqApiKey", "", fun v => v, fun v => v⟩

/-- Modelled from the spec: the `useLocalStorage` hook is absent from the
sources; per the spec the persisted state is one flat key space of
string-valued cells.  The store is an association list in which the most
recent write of a key shadows older entries. -/
abbrev Store := List (String × String)

/-- Modelled from the spec: write one key of the persisted key/value space. -/
def setItem (s : Store) (k v : String) : Store := (k, v) :: s

/-- Modelled from the spec: read one key of the persisted key/value space
(`none` when the key was never written). -/
def getItem (s : Store) (k : String) : Option String :=
  (s.find? (fun e => e.fst == k)).map (fun e => e.snd)

/-- Modelled from the spec: a cell's setter serializes the typed value and
immediately persists it under the cell's key. -/
def setCell {α : Type} (c : SettingsCell α) (s : Store) (v : α) : Store :=
  setItem s c.key (c.serialize v)

/-- Modelled from the spec: a cell's read deserializes the stored string,
falling back to the cell's default when the key is absent. -/
def getCell {α : Type} (c : SettingsCell α) (s : Store) : α :=
  match getItem s c.key with
  | some raw => c.deserialize raw
  | none => c.initialValue

/-- A `Partial<ReasoningSettings>` argument: each field optionally present. -/
structure ReasoningSettingsUpdate where
  useReasoningModel : Option Bool
  reasoningModel : Option String
  reasoningProvider : Option String
  cloudReasoningBaseUrl : Option String

/-- `updateReasoningSettings`: apply exactly the fields present, each through
its single-field setter; the `reasoningProvider` field is computed from
`reasoningModel`, not stored separately, so it is ignored here. -/
def updateReasoningSettings (s : Store) (u : ReasoningSettingsUpdate) : Store :=
  let s1 :=
    match u.useReasoningModel with
    | some v => setCell useReasoningModel s v
    | none => s
  let s2 :=
    match u.reasoningModel with
    | some v => setCell reasoningModel s1 v
    | none => s1
  match u.cloudReasoningBaseUrl with
  | some v => setCell cloudReasoningBaseUrl s2 v
  | none => s2

/-- A `Partial<ApiKeySettings>` argument: each field optionally present. -/
structure ApiKeysUpdate where
  openaiApiKey : Option String
  anthropicApiKey : Option String
  geminiApiKey : Option String
  groqApiKey : Option String

/-- `updateApiKeys`: apply exactly the key fields present, each through its
single-field setter (whose store effect is writing the cell). -/
def updateApiKeys (s : Store) (u : ApiKeysUpdate) : Store :=
  let s1 :=
    match u.openaiApiKey with
    | some v => setCell openaiApiKey s v
    | none => s
  let s2 :=
    match u.anthropicApiKey with
    | some v => setCell anthropicApiKey s1 v
    | none => s1
  let s3 :=
    match u.geminiApiKey with
    | some v => setCell geminiApiKey s2 v
    | none => s2
  match u.groqApiKey with
  | some v => setCell groqApiKey s3 v
  | none => s3

/-- The computed `reasoningProvider` value exposed by `useSettings`: resolved
from the current `reasoningModel` cell on every read, never stored. -/
def reasoningProvider (cloudProviders : List CloudProviderData)
    (providers : List ModelProvider) (s : Store) : String :=
  getModelProvider cloudProviders providers (getCell reasoningModel s)

/-! ## Helper lemmas -/

theorem isPrefixList_iff :
    ∀ (pat s : List Char), isPrefixList pat s = true ↔ ∃ t, s = pat ++ t := by
  intro pat
  induction pat with
  | nil =>
    intro s
    simp [isPrefixList]
  | cons a as ih =>
    intro s
    cases s with
    | nil =>
      simp [isPrefixList]
    | cons b bs =>
      rw [isPrefixList, Bool.and_eq_true, beq_iff_eq, ih bs]
      constructor
      · rintro ⟨rfl, t, rfl⟩
        exact ⟨t, rfl⟩
      · rintro ⟨t, ht⟩
        injection ht with h1 h2
        exact ⟨h1.symm, t, h2⟩

theorem splitFirst_sound (pat : List Char) :
    ∀ s u v, splitFirst s pat = some (u, v) → s = u ++ pat ++ v := by
  intro s
  induction s with
  | nil =>
    intro u v h
    rw [splitFirst] at h
    split at h
    · rename_i hpre
      obtain ⟨t, ht⟩ := (isPrefixList_iff pat []).mp hpre
      obtain ⟨hpat, -⟩ := List.append_eq_nil.mp ht.symm
      simp only [Option.some.injEq, Prod.mk.injEq] at h
      obtain ⟨hu, hv⟩ := h
      subst hu
      subst hv
      simp [hpat]
    · simp at h
  | cons c cs ih =>
    intro u v h
    rw [splitFirst] at h
    split at h
    · rename_i hpre
      obtain ⟨t, ht⟩ := (isPrefixList_iff pat (c :: cs)).mp hpre
      simp only [Option.some.injEq, Prod.mk.injEq] at h
      obtain ⟨hu, hv⟩ := h
      subst hu
      subst hv
      rw [ht, List.drop_left]
      simp
    · cases hcs : splitFirst cs pat with
      | none =>
        rw [hcs] at h
        simp at h
      | some pr =>
        obtain ⟨u0, v0⟩ := pr
        rw [hcs] at h
        simp only [Option.some.injEq, Prod.mk.injEq] at h
        obtain ⟨hu, hv⟩ := h
        subst hu
        subst hv
        have := ih u0 v0 hcs
        simp [this]

theorem splitFirst_min (pat : List Char) :
    ∀ s u v, splitFirst s pat = some (u, v) →
      ∀ u' v', s = u' ++ pat ++ v' → u.length ≤ u'.length := by
  intro s
  induction s with
  | nil =>
    intro u v h u' v' _
    rw [splitFirst] at h
    split at h
    · simp only [Option.some.injEq, Prod.mk.injEq] at h
      obtain ⟨hu, -⟩ := h
      subst hu
      exact Nat.zero_le _
    · simp at h
  | cons c cs ih =>
    intro u v h u' v' he
    rw [splitFirst] at h
    split at h
    · simp only [Option.some.injEq, Prod.mk.injEq] at h
      obtain ⟨hu, -⟩ := h
      subst hu
      exact Nat.zero_le _
    · rename_i hpre
      cases hcs : splitFirst cs pat with
      | none =>
        rw [hcs] at h
        simp at h
      | some pr =>
        obtain ⟨u0, v0⟩ := pr
        rw [hcs] at h
        simp only [Option.some.injEq, Prod.mk.injEq] at h
        obtain ⟨hu, -⟩ := h
        subst hu
        cases u' with
        | nil =>
          exfalso
          apply hpre
          rw [isPrefixList_iff]
          exact ⟨v', by simpa using he⟩
        | cons x u'' =>
          have h2 : cs = u'' ++ pat ++ v' := by
            simp only [List.cons_append] at he
            injection he
          have hle := ih u0 v0 hcs u'' v' h2
          simp only [List.length_cons]
          omega

theorem jsReplace_eq (s pat rep : String) (u v : List Char)
    (h : splitFirst s.data pat.data = some (u, v)) :
    jsReplace s pat rep = ⟨u ++ rep.data ++ v⟩ := by
  unfold jsReplace
  rw [h]

theorem assocSet_mem {α : Type} (l : List (String × α)) (k : String) (v : α) :
    (k, v) ∈ assocSet l k v := by
  unfold assocSet
  split
  · rename_i h
    rw [List.any_eq_true] at h
    obtain ⟨e, he, hk⟩ := h
    exact List.mem_map.mpr ⟨e, he, by simp [hk]⟩
  · exact List.mem_append.mpr (Or.inr (List.mem_singleton.mpr rfl))

theorem mem_flatMapL {α β : Type} (f : α → List β) (b : β) :
    ∀ l : List α, b ∈ flatMapL f l ↔ ∃ a ∈ l, b ∈ f a := by
  intro l
  induction l with
  | nil => simp [flatMapL]
  | cons a l ih => simp [flatMapL, List.mem_append, ih]

theorem find?_some_of_mem {α : Type} (p : α → Bool) :
    ∀ l : List α, (∃ x ∈ l, p x = true) →
      ∃ e, l.find? p = some e ∧ p e = true := by
  intro l
  induction l with
  | nil =>
    rintro ⟨x, hx, -⟩
    cases hx
  | cons a l ih =>
    rintro ⟨x, hx, hp⟩
    cases hpa : p a with
    | true =>
      refine ⟨a, ?_, hpa⟩
      rw [List.find?_cons, hpa]
    | false =>
      have hxl : x ∈ l := by
        rcases List.mem_cons.mp hx with h | h
        · subst h
          rw [hp] at hpa
          cases hpa
        · exact h
      obtain ⟨e, he, hpe⟩ := ih ⟨x, hxl, hp⟩
      refine ⟨e, ?_, hpe⟩
      rw [List.find?_cons, hpa]
      exact he

theorem registerProvider_fresh (ps : List ModelProvider) (p : ModelProvider)
    (h : ∀ q ∈ ps, q.id ≠ p.id) : registerProvider ps p = ps ++ [p] := by
  have hc : ¬ ((ps.any fun q => q.id == p.id) = true) := by
    rw [List.any_eq_true]
    rintro ⟨q, hq, hbeq⟩
    exact h q hq (beq_iff_eq.mp hbeq)
  unfold registerProvider
  rw [if_neg hc]

theorem foldl_registerProvider :
    ∀ (provs init : List ModelProvider),
      (∀ p ∈ provs, ∀ q ∈ init, q.id ≠ p.id) →
      (provs.map (fun p => p.id)).Nodup →
      provs.foldl registerProvider init = init ++ provs := by
  intro provs
  induction provs with
  | nil =>
    intro init _ _
    simp
  | cons p rest ih =>
    intro init hfresh hnodup
    rw [List.map_cons, List.nodup_cons] at hnodup
    obtain ⟨hnotin, hnd⟩ := hnodup
    have hstep : ∀ r ∈ rest, ∀ q ∈ init ++ [p], q.id ≠ r.id := by
      intro r hr q hq
      rcases List.mem_append.mp hq with hmem | hmem
      · exact hfresh r (List.mem_cons_of_mem _ hr) q hmem
      · have hqp : q = p := List.mem_singleton.mp hmem
        subst hqp
        intro hEq
        exact hnotin (List.mem_map.mpr ⟨r, hr, hEq.symm⟩)
    rw [List.foldl_cons,
      registerProvider_fresh init p (fun q hq => hfresh p (List.mem_cons_self p rest) q hq),
      ih (init ++ [p]) hstep hnd]
    simp

theorem flatMapL_append {α β : Type} (f : α → List β) :
    ∀ l₁ l₂ : List α, flatMapL f (l₁ ++ l₂) = flatMapL f l₁ ++ flatMapL f l₂ := by
  intro l₁ l₂
  induction l₁ with
  | nil => simp [flatMapL]
  | cons a l ih => simp [flatMapL, ih]

theorem length_flatMapL {α β : Type} (f : α → List β) :
    ∀ l : List α, (flatMapL f l).length = (l.map (fun a => (f a).length)).sum := by
  intro l
  induction l with
  | nil => simp [flatMapL]
  | cons a l ih => simp [flatMapL, ih]

theorem mem_registerProvider (ps : List ModelProvider) (p q : ModelProvider)
    (h : q ∈ registerProvider ps p) : q ∈ ps ∨ q = p := by
  unfold registerProvider at h
  split at h
  · obtain ⟨r, hr, hrq⟩ := List.mem_map.mp h
    by_cases hc : (r.id == p.id) = true
    · right
      rw [if_pos hc] at hrq
      exact hrq.symm
    · left
      rw [if_neg hc] at hrq
      exact hrq ▸ hr
  · rcases List.mem_append.mp h with hmem | hmem
    · exact Or.inl hmem
    · exact Or.inr (List.mem_singleton.mp hmem)

theorem mem_foldl_registerProvider :
    ∀ (ds init : List ModelProvider) (q : ModelProvider),
      q ∈ ds.foldl registerProvider init → q ∈ init ∨ q ∈ ds := by
  intro ds
  induction ds with
  | nil =>
    intro init q h
    simp only [List.foldl_nil] at h
    exact Or.inl h
  | cons p rest ih =>
    intro init q h
    rw [List.foldl_cons] at h
    rcases ih (registerProvider init p) q h with h' | h'
    · rcases mem_registerProvider init p q h' with h'' | h''
      · exact Or.inl h''
      · exact Or.inr (h'' ▸ List.mem_cons_self _ _)
    · exact Or.inr (List.mem_cons_of_mem _ h')

theorem getItem_setItem_same (s : Store) (k v : String) :
    getItem (setItem s k v) k = some v := by
  simp [getItem, setItem, List.find?_cons]

theorem getItem_setItem_ne (s : Store) (k v k' : String) (h : k' ≠ k) :
    getItem (setItem s k v) k' = getItem s k' := by
  have hb : (k == k') = false := beq_eq_false_iff_ne.mpr (Ne.symm h)
  simp [getItem, setItem, List.find?_cons, hb]

theorem getItem_setCell_ne {α : Type} (c : SettingsCell α) (s : Store) (v : α)
    (k : String) (h : k ≠ c.key) : getItem (setCell c s v) k = getItem s k :=
  getItem_setItem_ne s c.key (c.serialize v) k h

/-! ## Claim theorems -/

/-- A local model used to exercise claim C1. -/
def c1Model : ModelDefinition :=
  ⟨"tiny-net", "Tiny", "1 GB", 1, "tiny model", "tiny.gguf", "Q4", 2048, "acme/tiny", none⟩

/-- A registered local provider whose id differs from `"local"`, used to
exercise claim C1. -/
def c1Provider : ModelProvider :=
  ⟨"llamacpp", "Llama.cpp", "https://huggingface.co", [c1Model],
    fun _ _ => "", fun _ => ""⟩

/-- Claim C1 fails as stated: with a registry holding one provider of id
`"llamacpp"`, its model appears in `getAllModels()` carrying
`providerId = "llamacpp"`, yet `getModelProvider` on that model's id returns
`"local"` — the key of the synthetic reasoning-view bucket that holds every
registry model — and not the providerId attached by `getAllModels`. -/
theorem getModelProvider_not_registry_providerId :
    getAllModels [c1Provider] = [⟨c1Model, "llamacpp"⟩]
    ∧ getModelProvider [] [c1Provider] "tiny-net" = "local"
    ∧ ("local" : String) ≠ "llamacpp" :=
  ⟨by decide, by decide, by decide⟩

/-- Claim C1 (amended): for every model in `getAllModels()`, the resolver
always finds the model's id in the flattened reasoning view — so catalog hits
do take precedence and the heuristic rules are never consulted for such
models — and it returns the provider key of the first matching view entry
(the synthetic `"local"` bucket key for local models not shadowed by a cloud
entry), which need not equal the `providerId` attached by `getAllModels`. -/
theorem getModelProvider_returns_view_provider
    (cloudProviders : List CloudProviderData) (providers : List ModelProvider)
    (tm : TaggedModel) (h : tm ∈ getAllModels providers) :
    ∃ e, (getAllReasoningModels cloudProviders providers).find?
          (fun m => m.value == tm.id) = some e
      ∧ e.value = tm.id
      ∧ getModelProvider cloudProviders providers tm.id = e.provider := by
  have hmem : ∃ x ∈ getAllReasoningModels cloudProviders providers,
      (fun m => m.value == tm.id) x = true := by
    refine ⟨{ toReasoningModel :=
                ⟨tm.id, tm.name, tm.description ++ " (" ++ tm.size ++ ")"⟩
              provider := "local"
              fullLabel := "Local AI" ++ " " ++ tm.name }, ?_, by simp⟩
    unfold getAllReasoningModels
    rw [mem_flatMapL]
    refine ⟨("local",
        ⟨"Local AI",
          (getAllModels providers).map
            (fun m => ⟨m.id, m.name, m.description ++ " (" ++ m.size ++ ")"⟩)⟩),
      ?_, ?_⟩
    · unfold buildReasoningProviders
      exact assocSet_mem _ _ _
    · exact List.mem_map.mpr
        ⟨⟨tm.id, tm.name, tm.description ++ " (" ++ tm.size ++ ")"⟩,
          List.mem_map.mpr ⟨tm, h, rfl⟩, rfl⟩
  obtain ⟨e, hfind, hpe⟩ := find?_some_of_mem _ _ hmem
  refine ⟨e, hfind, beq_iff_eq.mp hpe, ?_⟩
  unfold getModelProvider
  rw [hfind]

/-- A local model used by the witness of claim C1's amended theorem. -/
def c1wModel : ModelDefinition :=
  ⟨"mini-net", "Mini", "2 GB", 2, "mini model", "mini.gguf", "Q5", 4096,
    "acme/mini", some true⟩

/-- A registered provider of id `"local"` used by the witness of claim C1's
amended theorem. -/
def c1wProvider : ModelProvider :=
  ⟨"local", "Local AI", "https://huggingface.co", [c1wModel],
    fun _ _ => "", fun _ => ""⟩

/-- Witness for the amended claim C1 at a concrete registry. -/
theorem getModelProvider_returns_view_provider_witness :
    (⟨c1wModel, "local"⟩ : TaggedModel) ∈ getAllModels [c1wProvider]
    ∧ ∃ e, (getAllReasoningModels [] [c1wProvider]).find?
          (fun m => m.value == (⟨c1wModel, "local"⟩ : TaggedModel).id) = some e
      ∧ e.value = (⟨c1wModel, "local"⟩ : TaggedModel).id
      ∧ getModelProvider [] [c1wProvider] (⟨c1wModel, "local"⟩ : TaggedModel).id
          = e.provider :=
  ⟨by decide,
    getModelProvider_returns_view_provider [] [c1wProvider] ⟨c1wModel, "local"⟩
      (by decide)⟩

/-- Claim C2: for every identifier that misses the flattened reasoning view,
`getModelProvider` returns exactly the result of the ordered heuristic table —
claude, gemini-not-gemma, gpt-4 or gpt-5 but not gpt-oss, the groq-specific
substrings, the generic local substrings, else the empty string. -/
theorem getModelProvider_heuristic_fallback
    (cloudProviders : List CloudProviderData) (providers : List ModelProvider)
    (modelId : String)
    (h : (getAllReasoningModels cloudProviders providers).find?
        (fun m => m.value == modelId) = none) :
    getModelProvider cloudProviders providers modelId =
      (if strIncludes modelId "claude" then "anthropic"
       else if strIncludes modelId "gemini" && !strIncludes modelId "gemma" then
         "gemini"
       else if (strIncludes modelId "gpt-4" || strIncludes modelId "gpt-5")
           && !strIncludes modelId "gpt-oss" then "openai"
       else if strIncludes modelId "qwen/" || strIncludes modelId "openai/"
           || strIncludes modelId "llama-3.1-8b-instant"
           || strIncludes modelId "llama-3.3-"
           || strIncludes modelId "mixtral-" || strIncludes modelId "gemma2-" then
         "groq"
       else if strIncludes modelId "qwen" || strIncludes modelId "llama"
           || strIncludes modelId "mistral"
           || strIncludes modelId "gpt-oss-20b-mxfp4" then "local"
       else "") := by
  unfold getModelProvider
  rw [h]

/-- Witness for claim C2: the four identifiers named by the claim miss the
(empty-registry) reasoning view and resolve to anthropic, groq, local and the
empty string respectively. -/
theorem getModelProvider_heuristic_fallback_witness :
    ((getAllReasoningModels [] []).find? (fun m => m.value == "claude-3-opus") = none
      ∧ getModelProvider [] [] "claude-3-opus" = "anthropic")
    ∧ ((getAllReasoningModels [] []).find?
          (fun m => m.value == "llama-3.3-70b-versatile") = none
      ∧ getModelProvider [] [] "llama-3.3-70b-versatile" = "groq")
    ∧ ((getAllReasoningModels [] []).find? (fun m => m.value == "llama-local-gguf") = none
      ∧ getModelProvider [] [] "llama-local-gguf" = "local")
    ∧ ((getAllReasoningModels [] []).find?
          (fun m => m.value == "totally-unknown-model-xyz") = none
      ∧ getModelProvider [] [] "totally-unknown-model-xyz" = "") :=
  ⟨⟨by decide, (getModelProvider_heuristic_fallback [] [] _ (by decide)).trans (by decide)⟩,
    ⟨by decide, (getModelProvider_heuristic_fallback [] [] _ (by decide)).trans (by decide)⟩,
    ⟨by decide, (getModelProvider_heuristic_fallback [] [] _ (by decide)).trans (by decide)⟩,
    ⟨by decide, (getModelProvider_heuristic_fallback [] [] _ (by decide)).trans (by decide)⟩⟩

/-- Claim C3: `formatPrompt` substitutes only the first occurrence of the
system marker with `systemPrompt` and then only the first occurrence of the
user marker with `text`.  With `splitFirst` locating the markers, the result
is exactly the prefix before the (provably leftmost) user-marker occurrence of
the once-substituted template, then `text`, then the untouched suffix — so any
later marker occurrences sit in the verbatim-copied suffixes `v` and `z` and
stay unsubstituted. -/
theorem createPromptFormatter_first_occurrence
    (template text systemPrompt : String) (u v w z : List Char)
    (h1 : splitFirst template.data ("\x7bsystem\x7d" : String).data = some (u, v))
    (h2 : splitFirst (u ++ systemPrompt.data ++ v) ("\x7buser\x7d" : String).data
        = some (w, z)) :
    createPromptFormatter template text systemPrompt = ⟨w ++ text.data ++ z⟩
    ∧ template.data = u ++ ("\x7bsystem\x7d" : String).data ++ v
    ∧ (∀ u' v', template.data = u' ++ ("\x7bsystem\x7d" : String).data ++ v' →
        u.length ≤ u'.length)
    ∧ u ++ systemPrompt.data ++ v = w ++ ("\x7buser\x7d" : String).data ++ z
    ∧ (∀ w' z', u ++ systemPrompt.data ++ v = w' ++ ("\x7buser\x7d" : String).data ++ z' →
        w.length ≤ w'.length) := by
  refine ⟨?_, splitFirst_sound _ _ _ _ h1, fun u' v' => splitFirst_min _ _ _ _ h1 u' v',
    splitFirst_sound _ _ _ _ h2, fun w' z' => splitFirst_min _ _ _ _ h2 w' z'⟩
  show jsReplace (jsReplace template "\x7bsystem\x7d" systemPrompt) "\x7buser\x7d" text = _
  rw [jsReplace_eq template "\x7bsystem\x7d" systemPrompt u v h1]
  exact jsReplace_eq _ "\x7buser\x7d" text w z h2

/-- Witness for claim C3: the claim's own example, with the marker positions
made explicit — the output is the specified `"SYS:be terse USR:hello"`. -/
theorem createPromptFormatter_first_occurrence_witness :
    splitFirst ("SYS:\x7bsystem\x7d USR:\x7buser\x7d" : String).data
        ("\x7bsystem\x7d" : String).data
      = some (("SYS:" : String).data, (" USR:\x7buser\x7d" : String).data)
    ∧ splitFirst (("SYS:" : String).data ++ ("be terse" : String).data
          ++ (" USR:\x7buser\x7d" : String).data) ("\x7buser\x7d" : String).data
      = some (("SYS:be terse USR:" : String).data, ([] : List Char))
    ∧ createPromptFormatter "SYS:\x7bsystem\x7d USR:\x7buser\x7d" "hello" "be terse"
      = "SYS:be terse USR:hello" := by
  refine ⟨by decide, by decide, ?_⟩
  have h := createPromptFormatter_first_occurrence
    "SYS:\x7bsystem\x7d USR:\x7buser\x7d" "hello" "be terse"
    ("SYS:" : String).data (" USR:\x7buser\x7d" : String).data
    ("SYS:be terse USR:" : String).data ([] : List Char)
    (by decide) (by decide)
  exact h.1.trans (by decide)

/-- Claim C9: because the system marker is substituted before the user marker,
a system prompt that itself contains the user marker captures the user text:
the user text lands inside the substituted system prompt and the template's
own user marker survives literally in the output. -/
theorem formatPrompt_system_before_user_interaction :
    createPromptFormatter "\x7bsystem\x7d and \x7buser\x7d" "T" "PRE \x7buser\x7d POST"
      = "PRE T POST and \x7buser\x7d" := by
  decide

/-- Claim C4: each boolean cell's deserializer follows its own per-cell
convention — `useLocalWhisper`, `allowOpenAIFallback` and `allowLocalFallback`
read `true` exactly on the stored string `"true"`, while `useReasoningModel`
and `preferBuiltInMic` read `true` exactly on any stored string other than
`"false"` — and under either convention the serialize/deserialize round trip
is the identity on booleans.  (Totality holds by construction: every
deserializer is a total function on strings.) -/
theorem bool_cells_conventions_and_roundtrip :
    (∀ v, (useLocalWhisper.deserialize v = true ↔ v = "true"))
    ∧ (∀ v, (allowOpenAIFallback.deserialize v = true ↔ v = "true"))
    ∧ (∀ v, (allowLocalFallback.deserialize v = true ↔ v = "true"))
    ∧ (∀ v, (useReasoningModel.deserialize v = true ↔ v ≠ "false"))
    ∧ (∀ v, (preferBuiltInMic.deserialize v = true ↔ v ≠ "false"))
    ∧ (∀ b, useLocalWhisper.deserialize (useLocalWhisper.serialize b) = b)
    ∧ (∀ b, allowOpenAIFallback.deserialize (allowOpenAIFallback.serialize b) = b)
    ∧ (∀ b, allowLocalFallback.deserialize (allowLocalFallback.serialize b) = b)
    ∧ (∀ b, useReasoningModel.deserialize (useReasoningModel.serialize b) = b)
    ∧ (∀ b, preferBuiltInMic.deserialize (preferBuiltInMic.serialize b) = b) := by
  refine ⟨fun v => ?_, fun v => ?_, fun v => ?_, fun v => ?_, fun v => ?_,
    fun b => ?_, fun b => ?_, fun b => ?_, fun b => ?_, fun b => ?_⟩
  · exact beq_iff_eq
  · exact beq_iff_eq
  · exact beq_iff_eq
  · exact bne_iff_ne
  · exact bne_iff_ne
  · cases b <;> decide
  · cases b <;> decide
  · cases b <;> decide
  · cases b <;> decide
  · cases b <;> decide

/-- Claim C5: the reasoning provider is never a stored cell — the exposed
value is recomputed by the resolver from the current `reasoningModel` cell on
every read; `updateReasoningSettings` behaves identically whether or not its
argument carries a `reasoningProvider` field, an update carrying only that
field leaves the store untouched, and no update ever changes a stored
`"reasoningProvider"` key. -/
theorem reasoningProvider_is_derived_not_stored :
    (∀ (cloudProviders : List CloudProviderData) (providers : List ModelProvider)
        (s : Store),
      reasoningProvider cloudProviders providers s
        = getModelProvider cloudProviders providers (getCell reasoningModel s))
    ∧ (∀ (s : Store) (u : ReasoningSettingsUpdate),
      updateReasoningSettings s u
        = updateReasoningSettings s
            ⟨u.useReasoningModel, u.reasoningModel, none, u.cloudReasoningBaseUrl⟩)
    ∧ (∀ (s : Store) (pv : String),
      updateReasoningSettings s ⟨none, none, some pv, none⟩ = s)
    ∧ (∀ (s : Store) (u : ReasoningSettingsUpdate),
      getItem (updateReasoningSettings s u) "reasoningProvider"
        = getItem s "reasoningProvider") := by
  refine ⟨fun _ _ _ => rfl, fun _ _ => rfl, fun _ _ => rfl, ?_⟩
  intro s u
  obtain ⟨a, b, c, d⟩ := u
  have e1 : ∀ (t : Store) (v : Bool),
      getItem (setCell useReasoningModel t v) "reasoningProvider"
        = getItem t "reasoningProvider" :=
    fun t v => getItem_setCell_ne useReasoningModel t v _ (by decide)
  have e2 : ∀ (t : Store) (v : String),
      getItem (setCell reasoningModel t v) "reasoningProvider"
        = getItem t "reasoningProvider" :=
    fun t v => getItem_setCell_ne reasoningModel t v _ (by decide)
  have e3 : ∀ (t : Store) (v : String),
      getItem (setCell cloudReasoningBaseUrl t v) "reasoningProvider"
        = getItem t "reasoningProvider" :=
    fun t v => getItem_setCell_ne cloudReasoningBaseUrl t v _ (by decide)
  cases a <;> cases b <;> cases d <;> simp [updateReasoningSettings, e1, e2, e3]

/-- Claim C6: `updateApiKeys` applies exactly the fields present, each through
the single-field setter — with only `groqApiKey` present it equals that cell's
setter, stores `"x"` in the groq cell, and leaves every other key of the
store (in particular the other three API-key cells) unchanged; in general any
key distinct from the four API-key cell keys is untouched by any update. -/
theorem updateApiKeys_updates_only_present_fields :
    (∀ s : Store, updateApiKeys s ⟨none, none, none, some "x"⟩
        = setCell groqApiKey s "x")
    ∧ (∀ s : Store,
      getCell groqApiKey (updateApiKeys s ⟨none, none, none, some "x"⟩) = "x")
    ∧ (∀ (s : Store) (k : String), k ≠ "groqApiKey" →
      getItem (updateApiKeys s ⟨none, none, none, some "x"⟩) k = getItem s k)
    ∧ (∀ (s : Store) (u : ApiKeysUpdate) (k : String),
      k ≠ "openaiApiKey" → k ≠ "anthropicApiKey" → k ≠ "geminiApiKey" →
      k ≠ "groqApiKey" →
      getItem (updateApiKeys s u) k = getItem s k) := by
  refine ⟨fun s => rfl, fun s => ?_, ?_, ?_⟩
  · show getCell groqApiKey (setCell groqApiKey s "x") = "x"
    simp [getCell, setCell, groqApiKey, getItem_setItem_same]
  · intro s k h
    exact getItem_setItem_ne s "groqApiKey" "x" k h
  · intro s u k h1 h2 h3 h4
    obtain ⟨a, b, c, d⟩ := u
    have e1 : ∀ (t : Store) (v : String),
        getItem (setCell openaiApiKey t v) k = getItem t k :=
      fun t v => getItem_setCell_ne openaiApiKey t v k h1
    have e2 : ∀ (t : Store) (v : String),
        getItem (setCell anthropicApiKey t v) k = getItem t k :=
      fun t v => getItem_setCell_ne anthropicApiKey t v k h2
    have e3 : ∀ (t : Store) (v : String),
        getItem (setCell geminiApiKey t v) k = getItem t k :=
      fun t v => getItem_setCell_ne geminiApiKey t v k h3
    have e4 : ∀ (t : Store) (v : String),
        getItem (setCell groqApiKey t v) k = getItem t k :=
      fun t v => getItem_setCell_ne groqApiKey t v k h4
    cases a <;> cases b <;> cases c <;> cases d <;>
      simp [updateApiKeys, e1, e2, e3, e4]

/-- Witness for claim C6: a concrete store holding an openai key; updating
only the groq key leaves the openai entry untouched, and an update carrying
openai and groq keys leaves an unrelated key (`"whisperModel"`) untouched. -/
theorem updateApiKeys_updates_only_present_fields_witness :
    (("openaiApiKey" : String) ≠ "groqApiKey"
      ∧ getItem (updateApiKeys [("openaiApiKey", "k")] ⟨none, none, none, some "x"⟩)
            "openaiApiKey"
          = getItem [("openaiApiKey", "k")] "openaiApiKey")
    ∧ (("whisperModel" : String) ≠ "openaiApiKey"
      ∧ ("whisperModel" : String) ≠ "anthropicApiKey"
      ∧ ("whisperModel" : String) ≠ "geminiApiKey"
      ∧ ("whisperModel" : String) ≠ "groqApiKey"
      ∧ getItem (updateApiKeys [] ⟨some "a", none, none, some "x"⟩) "whisperModel"
          = getItem [] "whisperModel") :=
  ⟨⟨by decide,
      updateApiKeys_updates_only_present_fields.2.2.1 [("openaiApiKey", "k")]
        "openaiApiKey" (by decide)⟩,
    ⟨by decide, by decide, by decide, by decide,
      updateApiKeys_updates_only_present_fields.2.2.2 [] ⟨some "a", none, none, some "x"⟩
        "whisperModel" (by decide) (by decide) (by decide) (by decide)⟩⟩

/-- Claim C10: the `activationMode` deserializer is total with range contained
in the two modes — `"push"` maps to `"push"`, every other string (the empty
string and arbitrary garbage included) maps to `"tap"`. -/
theorem activationMode_deserialize_total :
    activationMode.deserialize "push" = "push"
    ∧ (∀ v, v ≠ "push" → activationMode.deserialize v = "tap")
    ∧ (∀ v, activationMode.deserialize v = "tap"
        ∨ activationMode.deserialize v = "push") := by
  refine ⟨rfl, ?_, ?_⟩
  · intro v h
    have hb : (v == "push") = false := beq_eq_false_iff_ne.mpr h
    show (if v == "push" then "push" else "tap") = "tap"
    rw [hb]
    rfl
  · intro v
    cases hb : (v == "push") with
    | false =>
      left
      show (if v == "push" then "push" else "tap") = "tap"
      rw [hb]
      rfl
    | true =>
      right
      show (if v == "push" then "push" else "tap") = "push"
      rw [hb]
      rfl

/-- Witness for claim C10 at the empty string and a garbage string. -/
theorem activationMode_deserialize_total_witness :
    (("" : String) ≠ "push" ∧ activationMode.deserialize "" = "tap")
    ∧ (("garbage" : String) ≠ "push"
      ∧ activationMode.deserialize "garbage" = "tap") :=
  ⟨⟨by decide, activationMode_deserialize_total.2.1 "" (by decide)⟩,
    ⟨by decide, activationMode_deserialize_total.2.1 "garbage" (by decide)⟩⟩

/-- Claim C7: registering providers with pairwise distinct ids (and pairwise
disjoint model-id lists, as the claim assumes) appends them to the registry in
order, so `getAllModels()` is the previous contents followed by each new
provider's models in registration then in-provider order, each carrying its
provider's id, and its length grows by the sum of the providers' model
counts. -/
theorem getAllModels_registration_order
    (init provs : List ModelProvider)
    (hfresh : ∀ p ∈ provs, ∀ q ∈ init, q.id ≠ p.id)
    (hids : (provs.map (fun p => p.id)).Nodup)
    (hmodels : provs.Pairwise
      (fun p q => ∀ m ∈ p.models, ∀ n ∈ q.models, m.id ≠ n.id)) :
    getAllModels (provs.foldl registerProvider init)
      = getAllModels init
        ++ flatMapL
            (fun p => p.models.map
              (fun m => { toModelDefinition := m, providerId := p.id }))
            provs
    ∧ (getAllModels (provs.foldl registerProvider init)).length
      = (getAllModels init).length + (provs.map (fun p => p.models.length)).sum := by
  have hreg := foldl_registerProvider provs init hfresh hids
  have happ : getAllModels (provs.foldl registerProvider init)
      = getAllModels init
        ++ flatMapL
            (fun p => p.models.map
              (fun m => { toModelDefinition := m, providerId := p.id }))
            provs := by
    rw [hreg]
    unfold getAllModels
    rw [flatMapL_append]
  refine ⟨happ, ?_⟩
  rw [happ, List.length_append, length_flatMapL]
  congr 1
  simp [List.length_map]

/-- A model used by the witness of claim C7. -/
def c7ModelA : ModelDefinition :=
  ⟨"alpha-1", "Alpha", "1 GB", 1, "a", "a.gguf", "Q4", 1024, "acme/a", none⟩

/-- A model used by the witness of claim C7. -/
def c7ModelB : ModelDefinition :=
  ⟨"beta-1", "Beta", "2 GB", 2, "b", "b.gguf", "Q4", 2048, "acme/b", none⟩

/-- A model used by the witness of claim C7. -/
def c7ModelC : ModelDefinition :=
  ⟨"beta-2", "Beta Two", "3 GB", 3, "b2", "b2.gguf", "Q5", 2048, "acme/b2", none⟩

/-- A provider used by the witness of claim C7. -/
def c7ProvA : ModelProvider :=
  ⟨"prov-a", "Prov A", "https://huggingface.co", [c7ModelA], fun _ _ => "", fun _ => ""⟩

/-- A provider used by the witness of claim C7. -/
def c7ProvB : ModelProvider :=
  ⟨"prov-b", "Prov B", "https://huggingface.co", [c7ModelB, c7ModelC],
    fun _ _ => "", fun _ => ""⟩

/-- Witness for claim C7: two concrete providers registered into the empty
registry. -/
theorem getAllModels_registration_order_witness :
    (∀ p ∈ [c7ProvA, c7ProvB], ∀ q ∈ ([] : List ModelProvider), q.id ≠ p.id)
    ∧ (([c7ProvA, c7ProvB].map (fun p => p.id)).Nodup)
    ∧ ([c7ProvA, c7ProvB].Pairwise
        (fun p q => ∀ m ∈ p.models, ∀ n ∈ q.models, m.id ≠ n.id))
    ∧ (getAllModels ([c7ProvA, c7ProvB].foldl registerProvider [])
        = getAllModels []
          ++ flatMapL
              (fun p => p.models.map
                (fun m => { toModelDefinition := m, providerId := p.id }))
              [c7ProvA, c7ProvB]
      ∧ (getAllModels ([c7ProvA, c7ProvB].foldl registerProvider [])).length
        = (getAllModels []).length
          + ([c7ProvA, c7ProvB].map (fun p => p.models.length)).sum) :=
  ⟨fun p _ q hq => absurd hq (List.not_mem_nil q),
    by decide,
    by decide,
    getAllModels_registration_order [] [c7ProvA, c7ProvB]
      (fun p _ q hq => absurd hq (List.not_mem_nil q)) (by decide) (by decide)⟩

/-- Claim C8: every provider built by `registerProvidersFromData` from any
catalog composes its download URL as
`baseUrl ++ "/" ++ hfRepo ++ "/resolve/main/" ++ fileName` for every model. -/
theorem getDownloadUrl_composition
    (localProviders : List LocalProviderData) (p : ModelProvider)
    (hp : p ∈ registerProvidersFromData localProviders) (m : ModelDefinition) :
    p.getDownloadUrl m
      = p.baseUrl ++ "/" ++ m.hfRepo ++ "/resolve/main/" ++ m.fileName := by
  unfold registerProvidersFromData at hp
  rw [show localProviders.foldl (fun ps pd => registerProvider ps (providerFromData pd)) []
        = (localProviders.map providerFromData).foldl registerProvider [] from
      (List.foldl_map providerFromData registerProvider localProviders []).symm] at hp
  rcases mem_foldl_registerProvider _ _ _ hp with h | h
  · exact absurd h (List.not_mem_nil p)
  · obtain ⟨pd, hpd, hpdp⟩ := List.mem_map.mp h
    subst hpdp
    rfl

/-- A model used by the witness of claim C8. -/
def c8Model : ModelDefinition :=
  ⟨"gamma-1", "Gamma", "1 GB", 1, "g", "gamma.gguf", "Q4", 1024, "acme/gamma", none⟩

/-- A catalog entry used by the witness of claim C8. -/
def c8Data : LocalProviderData :=
  ⟨"local", "Local AI", "https://huggingface.co", "\x7bsystem\x7d\n\x7buser\x7d",
    [c8Model]⟩

/-- Witness for claim C8: the provider registered from a one-entry catalog
yields the fully composed Hugging Face URL. -/
theorem getDownloadUrl_composition_witness :
    providerFromData c8Data ∈ registerProvidersFromData [c8Data]
    ∧ (providerFromData c8Data).getDownloadUrl c8Model
        = (providerFromData c8Data).baseUrl ++ "/" ++ c8Model.hfRepo
          ++ "/resolve/main/" ++ c8Model.fileName
    ∧ (providerFromData c8Data).getDownloadUrl c8Model
        = "https://huggingface.co/acme/gamma/resolve/main/gamma.gguf" := by
  have hmem : providerFromData c8Data ∈ registerProvidersFromData [c8Data] := by
    show providerFromData c8Data ∈ [providerFromData c8Data]
    exact List.mem_singleton.mpr rfl
  exact ⟨hmem, getDownloadUrl_composition [c8Data] _ hmem c8Model, by decide⟩
